import Mathlib

/-!
Shallow embedding of the `vulkanctx` Vulkan context library: the capability
prober (queue-family and device selection), the presentation-chain creation
parameters (surface format, present mode, extent, image count, sharing mode),
the frame synchronizer, the frame-loop driver `drawFrame`, and the swapchain
recreation path.  Vulkan handles are abstracted; driver-reported data
(queue-family properties, surface capabilities, format and present-mode lists)
are explicit inputs.  All machine integers are `Nat` with explicit wrapping
modulo `2^32` where the C++ `uint32_t` arithmetic can overflow.
-/

namespace VulkanCtx

/-- `UINT32_MAX`, the sentinel used by `chooseSwapExtent`. -/
def UINT32_MAX : Nat := 4294967295

/-- `VkExtent2D`. -/
structure Extent2D where
  width : Nat
  height : Nat
deriving DecidableEq

/-- The fields of `VkSurfaceCapabilitiesKHR` the library reads. -/
structure SurfaceCapabilities where
  minImageCount : Nat
  maxImageCount : Nat
  currentExtent : Extent2D
  minImageExtent : Extent2D
  maxImageExtent : Extent2D
deriving DecidableEq

/-- `VkFormat` value `VK_FORMAT_B8G8R8A8_SRGB`. -/
def VK_FORMAT_B8G8R8A8_SRGB : Nat := 50

/-- `VkColorSpaceKHR` value `VK_COLOR_SPACE_SRGB_NONLINEAR_KHR`. -/
def VK_COLOR_SPACE_SRGB_NONLINEAR_KHR : Nat := 0

/-- `VkSurfaceFormatKHR`. -/
structure SurfaceFormat where
  format : Nat
  colorSpace : Nat
deriving DecidableEq

/-- The test inside the loop of `chooseSwapSurfaceFormat`. -/
def isPreferredFormat (f : SurfaceFormat) : Bool :=
  f.format == VK_FORMAT_B8G8R8A8_SRGB &&
    f.colorSpace == VK_COLOR_SPACE_SRGB_NONLINEAR_KHR

/-- The scan loop of `chooseSwapSurfaceFormat`: first entry passing the
preferred-format test, if any. -/
def chooseSwapSurfaceFormatLoop : List SurfaceFormat → Option SurfaceFormat
  | [] => none
  | f :: rest =>
    if isPreferredFormat f then some f else chooseSwapSurfaceFormatLoop rest

/-- `chooseSwapSurfaceFormat`: the preferred 8-bit BGRA / sRGB-nonlinear entry
if present, else `availableFormats[0]`.  The fallback subscript is modelled as
`List.get? 0`, so the out-of-bounds access on an empty list shows up as
`none`. -/
def chooseSwapSurfaceFormat (availableFormats : List SurfaceFormat) :
    Option SurfaceFormat :=
  match chooseSwapSurfaceFormatLoop availableFormats with
  | some f => some f
  | none => availableFormats.get? 0

/-- `VkPresentModeKHR` values the library mentions. -/
inductive PresentMode
  | immediate
  | mailbox
  | fifo
  | fifoRelaxed
deriving DecidableEq

/-- The scan loop of `chooseSwapPresentMode`. -/
def chooseSwapPresentModeLoop : List PresentMode → Option PresentMode
  | [] => none
  | m :: rest =>
    if m = PresentMode.mailbox then some m else chooseSwapPresentModeLoop rest

/-- `chooseSwapPresentMode`: mailbox when available, else FIFO. -/
def chooseSwapPresentMode (availablePresentModes : List PresentMode) :
    PresentMode :=
  match chooseSwapPresentModeLoop availablePresentModes with
  | some m => m
  | none => PresentMode.fifo

/-- `chooseSwapExtent`: current extent verbatim unless its width is the
`UINT32_MAX` sentinel; otherwise the framebuffer size clamped componentwise
into `[minImageExtent, maxImageExtent]` via the source's
`std::max(lo, std::min(hi, x))`. -/
def chooseSwapExtent (capabilities : SurfaceCapabilities)
    (framebufferWidth framebufferHeight : Nat) : Extent2D :=
  if capabilities.currentExtent.width ≠ UINT32_MAX then
    capabilities.currentExtent
  else
    { width := max capabilities.minImageExtent.width
        (min capabilities.maxImageExtent.width framebufferWidth)
      height := max capabilities.minImageExtent.height
        (min capabilities.maxImageExtent.height framebufferHeight) }

/-- The image-count computation inside `createSwapChain`:
`uint32_t imageCount = minImageCount + 1` (wrapping `uint32_t` addition),
then clamped down to `maxImageCount` when that bound is nonzero and
exceeded. -/
def createSwapChainImageCount (capabilities : SurfaceCapabilities) : Nat :=
  let imageCount := (capabilities.minImageCount + 1) % 4294967296
  if capabilities.maxImageCount > 0 ∧ imageCount > capabilities.maxImageCount
  then capabilities.maxImageCount
  else imageCount

/-- `VkQueueFamilyProperties` as the library reads it: the graphics bit of
`queueFlags`, plus the surface-support answer for this family. -/
structure QueueFamily where
  supportsGraphics : Bool
  presentSupport : Bool
deriving DecidableEq

/-- `QueueFamilyIndices`. -/
structure QueueFamilyIndices where
  graphicsFamily : Option Nat
  presentFamily : Option Nat
deriving DecidableEq

/-- `QueueFamilyIndices::isComplete`. -/
def QueueFamilyIndices.isComplete (q : QueueFamilyIndices) : Bool :=
  q.graphicsFamily.isSome && q.presentFamily.isSome

/-- The body of the scan loop of `findQueueFamilies` for the family at index
`i`: a family with the graphics bit overwrites the recorded graphics index,
and one with surface support overwrites the recorded present index. -/
def recordQueueFamily (indices : QueueFamilyIndices) (queueFamily : QueueFamily)
    (i : Nat) : QueueFamilyIndices :=
  let indices :=
    if queueFamily.supportsGraphics then
      { indices with graphicsFamily := some i }
    else indices
  if queueFamily.presentSupport then
    { indices with presentFamily := some i }
  else indices

/-- The scan loop of `findQueueFamilies`: each matching family overwrites the
recorded index, and the loop breaks once both roles are resolved (checked
after processing the current family). -/
def findQueueFamiliesLoop :
    List QueueFamily → Nat → QueueFamilyIndices → QueueFamilyIndices
  | [], _, indices => indices
  | queueFamily :: rest, i, indices =>
    let indices := recordQueueFamily indices queueFamily i
    if indices.isComplete then indices
    else findQueueFamiliesLoop rest (i + 1) indices

/-- `findQueueFamilies`. -/
def findQueueFamilies (queueFamilies : List QueueFamily) : QueueFamilyIndices :=
  findQueueFamiliesLoop queueFamilies 0 ⟨none, none⟩

/-- `VK_SHARING_MODE_*`. -/
inductive SharingMode
  | exclusive
  | concurrent
deriving DecidableEq

/-- The sharing-related fields of `VkSwapchainCreateInfoKHR`: the mode plus
the queue-family index list (`[]` models `queueFamilyIndexCount = 0`,
`pQueueFamilyIndices = nullptr`). -/
structure SharingConfig where
  imageSharingMode : SharingMode
  queueFamilyIndexList : List Nat
deriving DecidableEq

/-- The sharing-mode selection inside `createSwapChain`.  The source first
calls `.value()` on both role indices (modelled by `none` on an unresolved
role) and compares the optionals `graphicsFamily != presentFamily`. -/
def createSwapChainSharing (indices : QueueFamilyIndices) :
    Option SharingConfig :=
  match indices.graphicsFamily, indices.presentFamily with
  | some graphicsIndex, some presentIndex =>
    if graphicsIndex ≠ presentIndex then
      some ⟨SharingMode.concurrent, [graphicsIndex, presentIndex]⟩
    else
      some ⟨SharingMode.exclusive, []⟩
  | _, _ => none

/-- The abstract view of a `VkPhysicalDevice` together with everything the
prober queries about it: its queue families, the device extensions it
advertises, and the `querySwapChainSupport` snapshot (surface capabilities,
formats, present modes). -/
structure PhysicalDevice where
  queueFamilies : List QueueFamily
  availableExtensions : List String
  capabilities : SurfaceCapabilities
  formats : List SurfaceFormat
  presentModes : List PresentMode
deriving DecidableEq

/-- The required device extension list `deviceExtensions`. -/
def deviceExtensions : List String := ["VK_KHR_swapchain"]

/-- `checkDeviceExtensionSupport`: every required extension appears among the
device's available extensions (the source ticks required names off a set and
tests emptiness). -/
def checkDeviceExtensionSupport (device : PhysicalDevice) : Bool :=
  deviceExtensions.all (fun e => device.availableExtensions.contains e)

/-- `isDeviceSuitable`: both queue roles resolved, required extensions
present, and (queried only when extensions are supported) both the format and
present-mode lists non-empty. -/
def isDeviceSuitable (device : PhysicalDevice) : Bool :=
  let indices := findQueueFamilies device.queueFamilies
  let extensionSupported := checkDeviceExtensionSupport device
  let swapChainAdequate :=
    if extensionSupported then
      !device.formats.isEmpty && !device.presentModes.isEmpty
    else false
  indices.isComplete && extensionSupported && swapChainAdequate

/-- The two failure modes of `pickPhysicalDevice`. -/
inductive PickError
  | noVulkanSupport
  | noSuitableDevice
deriving DecidableEq

/-- The selection loop of `pickPhysicalDevice`: first suitable device, if
any. -/
def pickPhysicalDeviceLoop : List PhysicalDevice → Option PhysicalDevice
  | [] => none
  | device :: rest =>
    if isDeviceSuitable device then some device
    else pickPhysicalDeviceLoop rest

/-- `pickPhysicalDevice`: throws "Failed to find GPUs with Vulkan support"
when the enumeration is empty, otherwise returns the first suitable device or
throws "Failed to find suitable GPU". -/
def pickPhysicalDevice (devices : List PhysicalDevice) :
    Except PickError PhysicalDevice :=
  if devices.length = 0 then Except.error PickError.noVulkanSupport
  else
    match pickPhysicalDeviceLoop devices with
    | some device => Except.ok device
    | none => Except.error PickError.noSuitableDevice

/-- The `VkSwapchainCreateInfoKHR` fields `createSwapChain` computes (only
those the spec's claims are about). -/
structure SwapChainCreateConfig where
  minImageCount : Nat
  imageFormat : Nat
  imageColorSpace : Nat
  imageExtent : Extent2D
  sharing : SharingConfig
  presentMode : PresentMode
deriving DecidableEq

/-- `createSwapChain` assembled from its selection steps, in source order.
`none` models the failure of a fallible step: the out-of-bounds
`availableFormats[0]` on an empty format list, or `.value()` on an unresolved
queue role. -/
def createSwapChain (device : PhysicalDevice)
    (framebufferWidth framebufferHeight : Nat) :
    Option SwapChainCreateConfig := do
  let surfaceFormat ← chooseSwapSurfaceFormat device.formats
  let presentMode := chooseSwapPresentMode device.presentModes
  let extent :=
    chooseSwapExtent device.capabilities framebufferWidth framebufferHeight
  let imageCount := createSwapChainImageCount device.capabilities
  let indices := findQueueFamilies device.queueFamilies
  let sharing ← createSwapChainSharing indices
  some ⟨imageCount, surfaceFormat.format, surfaceFormat.colorSpace, extent,
    sharing, presentMode⟩

/-- An abstract semaphore handle. -/
structure Semaphore where
  id : Nat
deriving DecidableEq

/-- An abstract fence handle, remembering whether `vkCreateFence` was given
`VK_FENCE_CREATE_SIGNALED_BIT`. -/
structure Fence where
  id : Nat
  createdSignaled : Bool
deriving DecidableEq

/-- `SynchronizationObject`. -/
structure SynchronizationObject where
  amount : Nat
  renderFinishedSemaphores : List Semaphore
  imageAvailableSemaphores : List Semaphore
  inFlightFences : List Fence
  imagesInFlight : List (Option Fence)
deriving DecidableEq

/-- `createSynchronizationObject`: `amount` slots, each with two semaphores
and one fence created with `VK_FENCE_CREATE_SIGNALED_BIT`, plus the
image-fence map `imagesInFlight` sized to the chain's image count with every
entry `VK_NULL_HANDLE` (here `none`). -/
def createSynchronizationObject (amount swapChainImagesSize : Nat) :
    SynchronizationObject :=
  { amount := amount
    renderFinishedSemaphores := (List.range amount).map (fun i => ⟨i⟩)
    imageAvailableSemaphores := (List.range amount).map (fun i => ⟨i⟩)
    inFlightFences := (List.range amount).map (fun i => ⟨i, true⟩)
    imagesInFlight := List.replicate swapChainImagesSize none }

/-- The frame-loop state `drawFrame` acts on.  Fences are identified with
their slot index into `inFlightFences`; `imagesInFlight` maps each image
index to the slot whose fence is recorded there (`none` = `VK_NULL_HANDLE`);
`pending` lists the in-flight submissions as (slot, image index) pairs, a
submission being in flight from `vkQueueSubmit` until some
`vkWaitForFences` call on its slot's fence returns. -/
structure FrameLoopState where
  currentFrame : Nat
  imagesInFlight : List (Option Nat)
  pending : List (Nat × Nat)
deriving DecidableEq

/-- `vkWaitForFences` on slot `slot`'s fence: when it returns, every
submission guarded by that fence has completed and is no longer in
flight. -/
def waitForFence (slot : Nat) (pending : List (Nat × Nat)) :
    List (Nat × Nat) :=
  pending.filter (fun submission => submission.1 ≠ slot)

/-- The `VkResult` values relevant to acquire/present. -/
inductive VkStatus
  | success
  | suboptimalKHR
  | errorOutOfDateKHR
deriving DecidableEq

/-- What one `drawFrame` call produces: the updated synchronization state and
whether swapchain recreation was triggered. -/
structure DrawFrameResult where
  state : FrameLoopState
  swapChainRecreated : Bool
deriving DecidableEq

/-- One `drawFrame` call, with the acquired image index and the `VkResult`s
of `vkAcquireNextImageKHR` and `vkQueuePresentKHR` as inputs.  Mirrors the
source order: wait on the current slot's fence; acquire (the source never
reads `acquireStatus`); wait on the acquired image's recorded fence when one
is present; overwrite the mapping with the current slot's fence; reset the
slot's fence and submit; present (the source never reads `presentStatus`,
and `recreateSwapChain` is never called). -/
def drawFrame (st : FrameLoopState) (imageIndex : Nat)
    (acquireStatus presentStatus : VkStatus) : DrawFrameResult :=
  let pending := waitForFence st.currentFrame st.pending
  let pending :=
    match st.imagesInFlight.getD imageIndex none with
    | some recordedSlot => waitForFence recordedSlot pending
    | none => pending
  let imagesInFlight := st.imagesInFlight.set imageIndex (some st.currentFrame)
  let pending := (st.currentFrame, imageIndex) :: pending
  { state := ⟨st.currentFrame, imagesInFlight, pending⟩
    swapChainRecreated := false }

/-- The loop state right after `createSynchronizationObject`: `currentFrame =
0`, empty image-fence map entries, nothing submitted. -/
def initialFrameLoopState (numImages : Nat) : FrameLoopState :=
  ⟨0, List.replicate numImages none, []⟩

/-- One iteration of the application driver's main loop: call `drawFrame`
with the next acquired image index, then advance `currentFrame` modulo
`maxFramesInFlight` (`currentFrame = (currentFrame + 1) % MAX_FRAMES_IN_FLIGHT`
in the driver). -/
def frameLoopStep (maxFramesInFlight : Nat) (st : FrameLoopState)
    (imageIndex : Nat) : FrameLoopState :=
  let result := drawFrame st imageIndex VkStatus.success VkStatus.success
  { result.state with
      currentFrame := (result.state.currentFrame + 1) % maxFramesInFlight }

/-- The application driver's main loop over a trace of acquired image
indices, from the freshly created synchronization state. -/
def frameLoopRun (maxFramesInFlight numImages : Nat)
    (acquiredIndices : List Nat) : FrameLoopState :=
  acquiredIndices.foldl (frameLoopStep maxFramesInFlight)
    (initialFrameLoopState numImages)

/-- The device-level operations `recreateSwapChain` could perform, named
after the library functions that perform them. -/
inductive ResourceAction
  | deviceWaitIdle
  | createSwapChainAction
  | retrieveSwapChainImages
  | createImageViewsAction
  | createRenderPassAction
  | createGraphicsPipelineAction
  | createFramebuffersAction
  | createCommandBuffersAction
  | destroySwapChainAction
  | destroyImageViewsAction
deriving DecidableEq

/-- `recreateSwapChain` as the ordered trace of device-level operations its
body performs: wait idle, then re-run the creation sequence into local
variables.  No destroy call appears in the body (the `cleanupSwapChain`
helper is commented out in the source) and `createCommandBuffers` is not
called. -/
def recreateSwapChain : List ResourceAction :=
  [ResourceAction.deviceWaitIdle,
   ResourceAction.createSwapChainAction,
   ResourceAction.retrieveSwapChainImages,
   ResourceAction.createImageViewsAction,
   ResourceAction.createRenderPassAction,
   ResourceAction.createGraphicsPipelineAction,
   ResourceAction.createFramebuffersAction]

/-- Counts of live chain-level resources, for tracking leaks across
recreations. -/
structure ChainResources where
  liveSwapChains : Nat
  liveImageViewSets : Nat
deriving DecidableEq

/-- Effect of one device-level operation on the live-resource counts. -/
def applyAction (r : ChainResources) : ResourceAction → ChainResources
  | ResourceAction.createSwapChainAction =>
    { r with liveSwapChains := r.liveSwapChains + 1 }
  | ResourceAction.createImageViewsAction =>
    { r with liveImageViewSets := r.liveImageViewSets + 1 }
  | ResourceAction.destroySwapChainAction =>
    { r with liveSwapChains := r.liveSwapChains - 1 }
  | ResourceAction.destroyImageViewsAction =>
    { r with liveImageViewSets := r.liveImageViewSets - 1 }
  | _ => r

/-- Run a trace of device-level operations over the live-resource counts. -/
def runActions (r : ChainResources) (actions : List ResourceAction) :
    ChainResources :=
  actions.foldl applyAction r

/-- `k` successive invocations of `recreateSwapChain`. -/
def recreateRepeatedly (r : ChainResources) : Nat → ChainResources
  | 0 => r
  | k + 1 => recreateRepeatedly (runActions r recreateSwapChain) k

/-- The image-fence map invariant maintained by the frame loop: the map has
one entry per chain image, it records the slot fence of every in-flight
submission into that image's entry, and no slot ever has two submissions in
flight at once (its fence is waited on at the top of `drawFrame` before the
slot is reused). -/
def FenceMapInv (numImages : Nat) (st : FrameLoopState) : Prop :=
  st.imagesInFlight.length = numImages ∧
  (∀ s ∈ st.pending, st.imagesInFlight.getD s.2 none = some s.1) ∧
  st.pending.Pairwise (fun a b => a.1 ≠ b.1)

theorem getD_set_self (l : List (Option Nat)) (i : Nat) (a : Option Nat)
    (h : i < l.length) : (l.set i a).getD i none = a := by
  induction l generalizing i with
  | nil => simp at h
  | cons x xs ih =>
    cases i with
    | zero => rfl
    | succ n => simpa using ih n (by simpa using h)

theorem getD_set_ne (l : List (Option Nat)) (i j : Nat) (a : Option Nat)
    (h : j ≠ i) : (l.set i a).getD j none = l.getD j none := by
  induction l generalizing i j with
  | nil => simp
  | cons x xs ih =>
    cases i with
    | zero =>
      cases j with
      | zero => exact absurd rfl h
      | succ m => simp
    | succ n =>
      cases j with
      | zero => simp
      | succ m => simpa using ih n m (fun hh => h (by rw [hh]))

theorem mem_waitForFence (slot : Nat) (pending : List (Nat × Nat))
    (s : Nat × Nat) (h : s ∈ waitForFence slot pending) :
    s ∈ pending ∧ s.1 ≠ slot := by
  have hm := List.mem_filter.mp h
  refine ⟨hm.1, ?_⟩
  simpa using hm.2

theorem pairwise_waitForFence (slot : Nat) (pending : List (Nat × Nat))
    (h : pending.Pairwise (fun a b => a.1 ≠ b.1)) :
    (waitForFence slot pending).Pairwise (fun a b => a.1 ≠ b.1) :=
  h.sublist (List.filter_sublist pending)

/-- Claim C2 (evidence of the divergence): the source `drawFrame` never reads
the `VkResult` of `vkAcquireNextImageKHR` or `vkQueuePresentKHR`: an
out-of-date report leaves the resulting state exactly as a success does, and
no call ever triggers swapchain recreation. -/
theorem drawFrame_ignores_out_of_date (st : FrameLoopState) (imageIndex : Nat) :
    drawFrame st imageIndex VkStatus.errorOutOfDateKHR
        VkStatus.errorOutOfDateKHR =
      drawFrame st imageIndex VkStatus.success VkStatus.success ∧
    ∀ acquireStatus presentStatus : VkStatus,
      (drawFrame st imageIndex acquireStatus
          presentStatus).swapChainRecreated = false :=
  ⟨rfl, fun _ _ => rfl⟩

/-- Claim C3, counterexample: at `minSupported = 4294967295` (`UINT32_MAX`)
and `maxSupported = 0` the `uint32_t` addition `minImageCount + 1` wraps, so
the realized count is `0` rather than staying at `minSupported + 1`. -/
theorem createSwapChainImageCount_wraps_at_uint32_max :
    createSwapChainImageCount ⟨4294967295, 0, ⟨0, 0⟩, ⟨0, 0⟩, ⟨0, 0⟩⟩ = 0 ∧
    (0 : Nat) ≠ 4294967295 + 1 := by
  constructor
  · decide
  · decide

/-- Claim C3 (amended): whenever `minSupported + 1` stays within the
`uint32_t` range, `createSwapChain` requests `minSupported + 1` images,
clamped down to `maxSupported` when that bound is nonzero; a zero
`maxSupported` means unbounded and the request stays `minSupported + 1`.  (At
`minSupported = 2^32 - 1` the addition wraps to `0` instead.) -/
theorem createSwapChainImageCount_spec (caps : SurfaceCapabilities)
    (hmin : caps.minImageCount + 1 < 4294967296) :
    createSwapChainImageCount caps =
      if caps.maxImageCount = 0 then caps.minImageCount + 1
      else min (caps.minImageCount + 1) caps.maxImageCount := by
  simp only [createSwapChainImageCount, Nat.mod_eq_of_lt hmin]
  split_ifs with h1 h2 h2 <;> omega

/-- Witness for the C3 theorem at the spec's two scenarios:
`minSupported = 2, maxSupported = 0` realizes 3 images, and
`minSupported = 3, maxSupported = 3` clamps to 3. -/
theorem createSwapChainImageCount_spec_witness :
    createSwapChainImageCount ⟨2, 0, ⟨0, 0⟩, ⟨0, 0⟩, ⟨0, 0⟩⟩ = 3 ∧
    createSwapChainImageCount ⟨3, 3, ⟨0, 0⟩, ⟨0, 0⟩, ⟨0, 0⟩⟩ = 3 := by
  constructor
  · have h := createSwapChainImageCount_spec ⟨2, 0, ⟨0, 0⟩, ⟨0, 0⟩, ⟨0, 0⟩⟩
      (by decide)
    simpa using h
  · have h := createSwapChainImageCount_spec ⟨3, 3, ⟨0, 0⟩, ⟨0, 0⟩, ⟨0, 0⟩⟩
      (by decide)
    simpa using h

/-- Claim C5 (evidence of the divergence): the body of `recreateSwapChain`
does block on device idle first and re-runs the creation sequence, but it
performs no destroy of the prior chain or its views, never rebuilds the
per-image command recordings, and therefore leaks: starting from one live
chain and one live view set, two recreations leave three of each. -/
theorem recreateSwapChain_leaks :
    recreateSwapChain.head? = some ResourceAction.deviceWaitIdle ∧
    ResourceAction.destroySwapChainAction ∉ recreateSwapChain ∧
    ResourceAction.destroyImageViewsAction ∉ recreateSwapChain ∧
    ResourceAction.createCommandBuffersAction ∉ recreateSwapChain ∧
    recreateRepeatedly ⟨1, 1⟩ 2 = ⟨3, 3⟩ := by
  refine ⟨rfl, by decide, by decide, by decide, by decide⟩

/-- Claim C7: `chooseSwapExtent` returns the surface-mandated current extent
verbatim when its width is not the `UINT32_MAX` sentinel; under the sentinel
it clamps the drawable size componentwise into
`[minImageExtent, maxImageExtent]`: each component is
`max lo (min hi drawable)`, an in-bounds drawable passes through unchanged,
and the resulting width lies inside ordered bounds. -/
theorem chooseSwapExtent_spec (caps : SurfaceCapabilities) (w h : Nat) :
    (caps.currentExtent.width ≠ UINT32_MAX →
      chooseSwapExtent caps w h = caps.currentExtent) ∧
    (caps.currentExtent.width = UINT32_MAX →
      ((chooseSwapExtent caps w h).width =
          max caps.minImageExtent.width (min caps.maxImageExtent.width w) ∧
        (chooseSwapExtent caps w h).height =
          max caps.minImageExtent.height
            (min caps.maxImageExtent.height h)) ∧
      (caps.minImageExtent.width ≤ w → w ≤ caps.maxImageExtent.width →
        caps.minImageExtent.height ≤ h → h ≤ caps.maxImageExtent.height →
        chooseSwapExtent caps w h = ⟨w, h⟩) ∧
      (caps.minImageExtent.width ≤ caps.maxImageExtent.width →
        caps.minImageExtent.width ≤ (chooseSwapExtent caps w h).width ∧
        (chooseSwapExtent caps w h).width ≤ caps.maxImageExtent.width)) := by
  by_cases hs : caps.currentExtent.width = UINT32_MAX
  · refine ⟨fun hne => absurd hs hne, fun _ => ?_⟩
    simp only [chooseSwapExtent, hs, ne_eq, not_true_eq_false, if_false]
    refine ⟨⟨by trivial, by trivial⟩, ?_, ?_⟩
    · intro h1 h2 h3 h4
      have hw : max caps.minImageExtent.width
          (min caps.maxImageExtent.width w) = w := by omega
      have hh : max caps.minImageExtent.height
          (min caps.maxImageExtent.height h) = h := by omega
      simp [hw, hh]
    · intro hord
      constructor
      · exact Nat.le_max_left _ _
      · have : min caps.maxImageExtent.width w ≤
            caps.maxImageExtent.width := Nat.min_le_left _ _
        omega
  · refine ⟨fun _ => ?_, fun he => absurd he hs⟩
    simp [chooseSwapExtent, hs]

/-- Witness for the C7 theorem at the spec's scenario: sentinel extent,
drawable size (1024, 768), bounds (1,1)–(4096,4096) yield (1024, 768). -/
theorem chooseSwapExtent_spec_witness :
    chooseSwapExtent ⟨0, 0, ⟨4294967295, 4294967295⟩, ⟨1, 1⟩, ⟨4096, 4096⟩⟩
      1024 768 = ⟨1024, 768⟩ :=
  ((chooseSwapExtent_spec ⟨0, 0, ⟨4294967295, 4294967295⟩, ⟨1, 1⟩,
    ⟨4096, 4096⟩⟩ 1024 768).2 rfl).2.1 (by decide) (by decide) (by decide)
    (by decide)

/-- Claim C8: `createSwapChain` selects concurrent sharing with both family
indices listed when the graphics and present roles differ, and exclusive
sharing with an empty family list when they coincide; in particular
graphics 0 / present 2 gives concurrent with list [0, 2], and graphics 1 /
present 1 gives exclusive with no list. -/
theorem createSwapChainSharing_spec :
    (∀ g p : Nat, g ≠ p →
      createSwapChainSharing ⟨some g, some p⟩ =
        some ⟨SharingMode.concurrent, [g, p]⟩) ∧
    (∀ g p : Nat, g = p →
      createSwapChainSharing ⟨some g, some p⟩ =
        some ⟨SharingMode.exclusive, []⟩) ∧
    createSwapChainSharing ⟨some 0, some 2⟩ =
      some ⟨SharingMode.concurrent, [0, 2]⟩ ∧
    createSwapChainSharing ⟨some 1, some 1⟩ =
      some ⟨SharingMode.exclusive, []⟩ := by
  refine ⟨?_, ?_, by decide, by decide⟩
  · intro g p hne
    simp [createSwapChainSharing, hne]
  · intro g p he
    simp [createSwapChainSharing, he]

/-- Witness for the C8 theorem at the spec's two scenarios. -/
theorem createSwapChainSharing_spec_witness :
    createSwapChainSharing ⟨some 0, some 2⟩ =
      some ⟨SharingMode.concurrent, [0, 2]⟩ ∧
    createSwapChainSharing ⟨some 1, some 1⟩ =
      some ⟨SharingMode.exclusive, []⟩ :=
  ⟨createSwapChainSharing_spec.1 0 2 (by decide),
   createSwapChainSharing_spec.2.1 1 1 rfl⟩

/-- Claim C9: for `amount ≥ 1` frame slots, `createSynchronizationObject`
allocates exactly `amount` slots, each with an image-available semaphore, a
render-finished semaphore, and a fence created in the already-signaled
state, and an image-fence map with one entry per chain image, all entries
initially `VK_NULL_HANDLE`. -/
theorem createSynchronizationObject_spec (amount numImages : Nat)
    (hF : 1 ≤ amount) :
    (createSynchronizationObject amount numImages).amount = amount ∧
    (createSynchronizationObject amount
        numImages).imageAvailableSemaphores.length = amount ∧
    (createSynchronizationObject amount
        numImages).renderFinishedSemaphores.length = amount ∧
    (createSynchronizationObject amount numImages).inFlightFences.length =
      amount ∧
    (∀ f ∈ (createSynchronizationObject amount numImages).inFlightFences,
      f.createdSignaled = true) ∧
    (createSynchronizationObject amount numImages).imagesInFlight.length =
      numImages ∧
    ∀ e ∈ (createSynchronizationObject amount numImages).imagesInFlight,
      e = none := by
  refine ⟨rfl, by simp [createSynchronizationObject],
    by simp [createSynchronizationObject],
    by simp [createSynchronizationObject], ?_,
    by simp [createSynchronizationObject], ?_⟩
  · intro f hf
    simp only [createSynchronizationObject, List.mem_map] at hf
    obtain ⟨i, _, rfl⟩ := hf
    rfl
  · intro e he
    simp only [createSynchronizationObject] at he
    exact List.eq_of_mem_replicate he

/-- Witness for the C9 theorem at `F = 2` slots and `N = 3` chain images. -/
theorem createSynchronizationObject_spec_witness :
    (createSynchronizationObject 2 3).inFlightFences.length = 2 ∧
    (createSynchronizationObject 2 3).imagesInFlight.length = 3 :=
  ⟨(createSynchronizationObject_spec 2 3 (by decide)).2.2.2.1,
   (createSynchronizationObject_spec 2 3 (by decide)).2.2.2.2.2.1⟩

theorem chooseSwapSurfaceFormatLoop_eq_some (formats : List SurfaceFormat)
    (f : SurfaceFormat) (h : chooseSwapSurfaceFormatLoop formats = some f) :
    f ∈ formats ∧ isPreferredFormat f = true := by
  induction formats with
  | nil => simp [chooseSwapSurfaceFormatLoop] at h
  | cons g rest ih =>
    by_cases hg : isPreferredFormat g = true
    · simp only [chooseSwapSurfaceFormatLoop, hg, if_true,
        Option.some.injEq] at h
      subst h
      exact ⟨List.mem_cons_self g rest, hg⟩
    · simp only [chooseSwapSurfaceFormatLoop, hg, if_false] at h
      obtain ⟨hm, hp⟩ := ih h
      exact ⟨List.mem_cons_of_mem g hm, hp⟩

theorem chooseSwapSurfaceFormatLoop_eq_none (formats : List SurfaceFormat)
    (h : ∀ f ∈ formats, isPreferredFormat f = false) :
    chooseSwapSurfaceFormatLoop formats = none := by
  induction formats with
  | nil => rfl
  | cons g rest ih =>
    have hg := h g (List.mem_cons_self g rest)
    simp only [chooseSwapSurfaceFormatLoop, hg]
    simp only [Bool.false_eq_true, if_false]
    exact ih (fun f hf => h f (List.mem_cons_of_mem g hf))

theorem chooseSwapSurfaceFormatLoop_of_mem (formats : List SurfaceFormat)
    (f : SurfaceFormat) (hmem : f ∈ formats)
    (hpref : isPreferredFormat f = true) :
    ∃ g, chooseSwapSurfaceFormatLoop formats = some g := by
  induction formats with
  | nil => simp at hmem
  | cons g0 rest ih =>
    by_cases hg : isPreferredFormat g0 = true
    · exact ⟨g0, by simp [chooseSwapSurfaceFormatLoop, hg]⟩
    · rcases List.mem_cons.mp hmem with rfl | hmem'
      · exact absurd hpref hg
      · obtain ⟨g, hgeq⟩ := ih hmem'
        exact ⟨g, by simp [chooseSwapSurfaceFormatLoop, hg, hgeq]⟩

/-- Claim C10: `chooseSwapSurfaceFormat` is total only on non-empty lists:
the preferred 8-bit BGRA / sRGB-nonlinear entry when present, else the first
listed entry; on an empty list the `availableFormats[0]` fallback is out of
bounds (modelled `none`), and the suitability predicate established by
`isDeviceSuitable` guarantees the non-empty format list `createSwapChain`
needs to be safe. -/
theorem chooseSwapSurfaceFormat_spec (formats : List SurfaceFormat)
    (device : PhysicalDevice) :
    chooseSwapSurfaceFormat [] = none ∧
    ((∃ f ∈ formats, isPreferredFormat f = true) →
      ∃ f, chooseSwapSurfaceFormat formats = some f ∧ f ∈ formats ∧
        isPreferredFormat f = true) ∧
    ((∀ f ∈ formats, isPreferredFormat f = false) →
      chooseSwapSurfaceFormat formats = formats.get? 0) ∧
    (formats ≠ [] → (chooseSwapSurfaceFormat formats).isSome = true) ∧
    (isDeviceSuitable device = true →
      (chooseSwapSurfaceFormat device.formats).isSome = true) := by
  have hnonempty : ∀ fs : List SurfaceFormat, fs ≠ [] →
      (chooseSwapSurfaceFormat fs).isSome = true := by
    intro fs hne
    unfold chooseSwapSurfaceFormat
    cases hcase : chooseSwapSurfaceFormatLoop fs with
    | some f => rfl
    | none =>
      cases fs with
      | nil => exact absurd rfl hne
      | cons x xs => simp
  refine ⟨rfl, ?_, ?_, hnonempty formats, ?_⟩
  · rintro ⟨f, hmem, hpref⟩
    obtain ⟨g, hg⟩ := chooseSwapSurfaceFormatLoop_of_mem formats f hmem hpref
    have hgm := chooseSwapSurfaceFormatLoop_eq_some formats g hg
    exact ⟨g, by simp [chooseSwapSurfaceFormat, hg], hgm.1, hgm.2⟩
  · intro hall
    have hn := chooseSwapSurfaceFormatLoop_eq_none formats hall
    simp [chooseSwapSurfaceFormat, hn]
  · intro hsuit
    apply hnonempty
    intro hnil
    simp only [isDeviceSuitable, Bool.and_eq_true] at hsuit
    obtain ⟨⟨hcomp, hext⟩, hadq⟩ := hsuit
    rw [hnil] at hadq
    simp [hext] at hadq

/-- Witness for the C10 theorem: a singleton list containing the preferred
format is non-empty, so the selection succeeds. -/
theorem chooseSwapSurfaceFormat_spec_witness :
    (chooseSwapSurfaceFormat [⟨50, 0⟩]).isSome = true :=
  (chooseSwapSurfaceFormat_spec [⟨50, 0⟩]
    ⟨[], [], ⟨0, 0, ⟨0, 0⟩, ⟨0, 0⟩, ⟨0, 0⟩⟩, [], []⟩).2.2.2.1 (by decide)

theorem pickPhysicalDeviceLoop_eq_none (devices : List PhysicalDevice)
    (h : ∀ d ∈ devices, isDeviceSuitable d = false) :
    pickPhysicalDeviceLoop devices = none := by
  induction devices with
  | nil => rfl
  | cons d rest ih =>
    have hd := h d (List.mem_cons_self d rest)
    simp only [pickPhysicalDeviceLoop, hd, Bool.false_eq_true, if_false]
    exact ih (fun d' hd' => h d' (List.mem_cons_of_mem d hd'))

theorem pickPhysicalDeviceLoop_of_mem (devices : List PhysicalDevice)
    (d : PhysicalDevice) (hmem : d ∈ devices)
    (hsuit : isDeviceSuitable d = true) :
    ∃ d', pickPhysicalDeviceLoop devices = some d' := by
  induction devices with
  | nil => simp at hmem
  | cons d0 rest ih =>
    by_cases h0 : isDeviceSuitable d0 = true
    · exact ⟨d0, by simp [pickPhysicalDeviceLoop, h0]⟩
    · rcases List.mem_cons.mp hmem with rfl | hmem'
      · exact absurd hsuit h0
      · obtain ⟨d', hd'⟩ := ih hmem'
        exact ⟨d', by simp [pickPhysicalDeviceLoop, h0, hd']⟩

theorem pickPhysicalDeviceLoop_eq_some (devices : List PhysicalDevice)
    (d : PhysicalDevice) (h : pickPhysicalDeviceLoop devices = some d) :
    isDeviceSuitable d = true ∧
    ∃ k, devices.get? k = some d ∧
      ∀ j, j < k → ∀ d', devices.get? j = some d' →
        isDeviceSuitable d' = false := by
  induction devices with
  | nil => simp [pickPhysicalDeviceLoop] at h
  | cons d0 rest ih =>
    by_cases h0 : isDeviceSuitable d0 = true
    · simp only [pickPhysicalDeviceLoop, h0, if_true, Option.some.injEq] at h
      subst h
      exact ⟨h0, 0, rfl, fun j hj => absurd hj (Nat.not_lt_zero j)⟩
    · simp only [pickPhysicalDeviceLoop, h0, if_false] at h
      obtain ⟨hs, k, hk, hbefore⟩ := ih h
      refine ⟨hs, k + 1, by simpa using hk, ?_⟩
      intro j hj d' hd'
      cases j with
      | zero =>
        simp only [List.get?] at hd'
        cases hd'
        simpa using h0
      | succ m =>
        exact hbefore m (Nat.lt_of_succ_lt_succ hj) d' (by simpa using hd')

/-- Claim C6: `pickPhysicalDevice` fails with the no-Vulkan-support error on
an empty enumeration, fails with the no-suitable-device error when no device
is suitable, and otherwise returns the first device satisfying the full
suitability predicate (both queue roles resolved, required extensions
present, format and present-mode lists non-empty). -/
theorem pickPhysicalDevice_spec (devices : List PhysicalDevice) :
    (devices = [] →
      pickPhysicalDevice devices = Except.error PickError.noVulkanSupport) ∧
    (devices ≠ [] → (∀ d ∈ devices, isDeviceSuitable d = false) →
      pickPhysicalDevice devices = Except.error PickError.noSuitableDevice) ∧
    ((∃ d ∈ devices, isDeviceSuitable d = true) →
      ∃ d, pickPhysicalDevice devices = Except.ok d) ∧
    (∀ d, pickPhysicalDevice devices = Except.ok d →
      isDeviceSuitable d = true ∧
      ∃ k, devices.get? k = some d ∧
        ∀ j, j < k → ∀ d', devices.get? j = some d' →
          isDeviceSuitable d' = false) ∧
    (∀ d, isDeviceSuitable d = true ↔
      ((findQueueFamilies d.queueFamilies).isComplete = true ∧
        checkDeviceExtensionSupport d = true ∧
        d.formats ≠ [] ∧ d.presentModes ≠ [])) := by
  refine ⟨?_, ?_, ?_, ?_, ?_⟩
  · intro hnil
    subst hnil
    rfl
  · intro hne hall
    have hlen : ¬ devices.length = 0 := by
      cases devices with
      | nil => exact absurd rfl hne
      | cons d rest => simp
    simp only [pickPhysicalDevice, hlen, if_false,
      pickPhysicalDeviceLoop_eq_none devices hall]
  · rintro ⟨d, hmem, hsuit⟩
    have hlen : ¬ devices.length = 0 := by
      cases devices with
      | nil => simp at hmem
      | cons d0 rest => simp
    obtain ⟨d', hd'⟩ := pickPhysicalDeviceLoop_of_mem devices d hmem hsuit
    exact ⟨d', by simp [pickPhysicalDevice, hlen, hd']⟩
  · intro d hok
    unfold pickPhysicalDevice at hok
    by_cases hlen : devices.length = 0
    · simp [hlen] at hok
    · simp only [hlen, if_false] at hok
      cases hloop : pickPhysicalDeviceLoop devices with
      | none => rw [hloop] at hok; cases hok
      | some d0 =>
        rw [hloop] at hok
        cases hok
        exact pickPhysicalDeviceLoop_eq_some devices d hloop
  · intro d
    constructor
    · intro hsuit
      simp only [isDeviceSuitable, Bool.and_eq_true] at hsuit
      obtain ⟨⟨hcomp, hext⟩, hadq⟩ := hsuit
      rw [if_pos hext] at hadq
      simp only [Bool.and_eq_true, Bool.not_eq_true'] at hadq
      refine ⟨hcomp, hext, ?_, ?_⟩
      · intro hnil
        rw [hnil] at hadq
        simp at hadq
      · intro hnil
        rw [hnil] at hadq
        simp at hadq
    · rintro ⟨hcomp, hext, hf, hm⟩
      simp only [isDeviceSuitable, Bool.and_eq_true]
      refine ⟨⟨hcomp, hext⟩, ?_⟩
      rw [if_pos hext]
      simp only [Bool.and_eq_true, Bool.not_eq_true']
      constructor
      · cases hfs : d.formats with
        | nil => exact absurd hfs hf
        | cons x xs => simp [hfs]
      · cases hms : d.presentModes with
        | nil => exact absurd hms hm
        | cons x xs => simp [hms]

/-- Witness for the C6 theorem: an empty enumeration produces the
no-Vulkan-support error. -/
theorem pickPhysicalDevice_spec_witness :
    pickPhysicalDevice [] = Except.error PickError.noVulkanSupport :=
  (pickPhysicalDevice_spec []).1 rfl

theorem recordQueueFamily_graphics (acc : QueueFamilyIndices)
    (f : QueueFamily) (i : Nat) :
    (recordQueueFamily acc f i).graphicsFamily =
      if f.supportsGraphics then some i else acc.graphicsFamily := by
  unfold recordQueueFamily
  by_cases hg : f.supportsGraphics = true <;>
    by_cases hp : f.presentSupport = true <;> simp [hg, hp]

theorem recordQueueFamily_present (acc : QueueFamilyIndices)
    (f : QueueFamily) (i : Nat) :
    (recordQueueFamily acc f i).presentFamily =
      if f.presentSupport then some i else acc.presentFamily := by
  unfold recordQueueFamily
  by_cases hg : f.supportsGraphics = true <;>
    by_cases hp : f.presentSupport = true <;> simp [hg, hp]

theorem findQueueFamiliesLoop_sound (P Q : Nat → Prop) :
    ∀ (fams : List QueueFamily) (i : Nat) (acc : QueueFamilyIndices),
      (∀ g, acc.graphicsFamily = some g → P g) →
      (∀ p, acc.presentFamily = some p → Q p) →
      (∀ k f, fams.get? k = some f → f.supportsGraphics = true → P (i + k)) →
      (∀ k f, fams.get? k = some f → f.presentSupport = true → Q (i + k)) →
      (∀ g, (findQueueFamiliesLoop fams i acc).graphicsFamily = some g →
        P g) ∧
      (∀ p, (findQueueFamiliesLoop fams i acc).presentFamily = some p →
        Q p) := by
  intro fams
  induction fams with
  | nil =>
    intro i acc hg hp _ _
    exact ⟨hg, hp⟩
  | cons f0 rest ih =>
    intro i acc hg hp hPg hQp
    have hg2 : ∀ g, (recordQueueFamily acc f0 i).graphicsFamily = some g →
        P g := by
      intro g hgeq
      rw [recordQueueFamily_graphics] at hgeq
      by_cases h0 : f0.supportsGraphics = true
      · rw [if_pos h0] at hgeq
        cases hgeq
        have := hPg 0 f0 rfl h0
        simpa using this
      · rw [if_neg h0] at hgeq
        exact hg g hgeq
    have hp2 : ∀ p, (recordQueueFamily acc f0 i).presentFamily = some p →
        Q p := by
      intro p hpeq
      rw [recordQueueFamily_present] at hpeq
      by_cases h0 : f0.presentSupport = true
      · rw [if_pos h0] at hpeq
        cases hpeq
        have := hQp 0 f0 rfl h0
        simpa using this
      · rw [if_neg h0] at hpeq
        exact hp p hpeq
    simp only [findQueueFamiliesLoop]
    by_cases hc : (recordQueueFamily acc f0 i).isComplete = true
    · rw [if_pos hc]
      exact ⟨hg2, hp2⟩
    · rw [if_neg hc]
      apply ih (i + 1) (recordQueueFamily acc f0 i) hg2 hp2
      · intro k f hk hf
        have h1 := hPg (k + 1) f (by simpa using hk) hf
        have h2 : i + (k + 1) = i + 1 + k := by omega
        rwa [h2] at h1
      · intro k f hk hf
        have h1 := hQp (k + 1) f (by simpa using hk) hf
        have h2 : i + (k + 1) = i + 1 + k := by omega
        rwa [h2] at h1

theorem findQueueFamiliesLoop_isComplete :
    ∀ (fams : List QueueFamily) (i : Nat) (acc : QueueFamilyIndices),
      ((∃ f ∈ fams, f.supportsGraphics = true) ∨
        acc.graphicsFamily.isSome = true) →
      ((∃ f ∈ fams, f.presentSupport = true) ∨
        acc.presentFamily.isSome = true) →
      (findQueueFamiliesLoop fams i acc).isComplete = true := by
  intro fams
  induction fams with
  | nil =>
    intro i acc hg hp
    have hg2 : acc.graphicsFamily.isSome = true := by
      rcases hg with ⟨f, hf, _⟩ | hacc
      · simp at hf
      · exact hacc
    have hp2 : acc.presentFamily.isSome = true := by
      rcases hp with ⟨f, hf, _⟩ | hacc
      · simp at hf
      · exact hacc
    simp only [findQueueFamiliesLoop, QueueFamilyIndices.isComplete, hg2,
      hp2, Bool.and_self]
  | cons f0 rest ih =>
    intro i acc hg hp
    simp only [findQueueFamiliesLoop]
    by_cases hc : (recordQueueFamily acc f0 i).isComplete = true
    · rw [if_pos hc]
      exact hc
    · rw [if_neg hc]
      apply ih (i + 1)
      · rcases hg with ⟨f, hf, hfg⟩ | hacc
        · rcases List.mem_cons.mp hf with rfl | hfrest
          · right
            rw [recordQueueFamily_graphics, if_pos hfg]
            rfl
          · exact Or.inl ⟨f, hfrest, hfg⟩
        · right
          rw [recordQueueFamily_graphics]
          by_cases h0 : f0.supportsGraphics = true
          · rw [if_pos h0]
            rfl
          · rw [if_neg h0]
            exact hacc
      · rcases hp with ⟨f, hf, hfp⟩ | hacc
        · rcases List.mem_cons.mp hf with rfl | hfrest
          · right
            rw [recordQueueFamily_present, if_pos hfp]
            rfl
          · exact Or.inl ⟨f, hfrest, hfp⟩
        · right
          rw [recordQueueFamily_present]
          by_cases h0 : f0.presentSupport = true
          · rw [if_pos h0]
            rfl
          · rw [if_neg h0]
            exact hacc

/-- Claim C4, counterexample: with families [graphics-only, graphics-only,
present-only], family 0 is the first exposing graphics capability, yet
`findQueueFamilies` records family 1 as the graphics role — each matching
family overwrites the record, so the last match before the stopping point
wins, not the first. -/
theorem findQueueFamilies_records_last_not_first :
    (([⟨true, false⟩, ⟨true, false⟩, ⟨false, true⟩] :
        List QueueFamily).get? 0 = some ⟨true, false⟩) ∧
    (findQueueFamilies
        [⟨true, false⟩, ⟨true, false⟩, ⟨false, true⟩]).graphicsFamily ≠
      some 0 ∧
    (findQueueFamilies
        [⟨true, false⟩, ⟨true, false⟩, ⟨false, true⟩]).graphicsFamily =
      some 1 := by
  refine ⟨rfl, by decide, by decide⟩

/-- Claim C4 (amended): `findQueueFamilies` scans families in index order;
each family exposing graphics capability overwrites the recorded graphics
role (so the role holds the most recently scanned matching family, not
necessarily the first), independently likewise for presentation support, and
scanning stops once both roles are resolved.  Consequently every recorded
role index points at a family actually exposing that capability, and both
roles resolve whenever the list contains at least one graphics-capable and
one present-capable family. -/
theorem findQueueFamilies_spec (queueFamilies : List QueueFamily) :
    (∀ g, (findQueueFamilies queueFamilies).graphicsFamily = some g →
      ∃ f, queueFamilies.get? g = some f ∧ f.supportsGraphics = true) ∧
    (∀ p, (findQueueFamilies queueFamilies).presentFamily = some p →
      ∃ f, queueFamilies.get? p = some f ∧ f.presentSupport = true) ∧
    ((∃ f ∈ queueFamilies, f.supportsGraphics = true) →
      (∃ f ∈ queueFamilies, f.presentSupport = true) →
      (findQueueFamilies queueFamilies).isComplete = true) := by
  have hsound := findQueueFamiliesLoop_sound
    (fun g => ∃ f, queueFamilies.get? g = some f ∧ f.supportsGraphics = true)
    (fun p => ∃ f, queueFamilies.get? p = some f ∧ f.presentSupport = true)
    queueFamilies 0 ⟨none, none⟩
    (fun g hgeq => Option.noConfusion hgeq)
    (fun p hpeq => Option.noConfusion hpeq)
    (fun k f hk hf => ⟨f, by simpa using hk, hf⟩)
    (fun k f hk hf => ⟨f, by simpa using hk, hf⟩)
  refine ⟨hsound.1, hsound.2, ?_⟩
  intro hgex hpex
  exact findQueueFamiliesLoop_isComplete queueFamilies 0 ⟨none, none⟩
    (Or.inl hgex) (Or.inl hpex)

/-- Witness for the C4 theorem: a single family exposing both capabilities
resolves both roles. -/
theorem findQueueFamilies_spec_witness :
    (findQueueFamilies [⟨true, true⟩]).isComplete = true :=
  (findQueueFamilies_spec [⟨true, true⟩]).2.2
    ⟨⟨true, true⟩, by decide, rfl⟩ ⟨⟨true, true⟩, by decide, rfl⟩

theorem drawFrame_state (st : FrameLoopState) (imageIndex : Nat)
    (a b : VkStatus) :
    (drawFrame st imageIndex a b).state =
      ⟨st.currentFrame,
       st.imagesInFlight.set imageIndex (some st.currentFrame),
       (st.currentFrame, imageIndex) ::
         (match st.imagesInFlight.getD imageIndex none with
          | some recordedSlot =>
            waitForFence recordedSlot
              (waitForFence st.currentFrame st.pending)
          | none => waitForFence st.currentFrame st.pending)⟩ := rfl

theorem inv_after_submit (numImages : Nat) (st : FrameLoopState)
    (imageIndex : Nat) (p2 : List (Nat × Nat))
    (hlen : st.imagesInFlight.length = numImages)
    (hsub : ∀ s ∈ p2, s ∈ st.pending)
    (hnotcur : ∀ s ∈ p2, s.1 ≠ st.currentFrame)
    (hnoimg : ∀ s ∈ p2, s.2 ≠ imageIndex)
    (hmap : ∀ s ∈ st.pending, st.imagesInFlight.getD s.2 none = some s.1)
    (hpair2 : p2.Pairwise (fun a b => a.1 ≠ b.1))
    (himg : imageIndex < numImages) :
    FenceMapInv numImages
      ⟨st.currentFrame,
       st.imagesInFlight.set imageIndex (some st.currentFrame),
       (st.currentFrame, imageIndex) :: p2⟩ := by
  refine ⟨by simpa using hlen, ?_, ?_⟩
  · intro s hs
    rcases List.mem_cons.mp hs with rfl | hs2
    · exact getD_set_self _ _ _ (by omega)
    · show (st.imagesInFlight.set imageIndex
          (some st.currentFrame)).getD s.2 none = some s.1
      rw [getD_set_ne _ _ _ _ (hnoimg s hs2)]
      exact hmap s (hsub s hs2)
  · refine List.Pairwise.cons ?_ hpair2
    intro b hb heq
    exact hnotcur b hb heq.symm

theorem drawFrame_inv (numImages : Nat) (st : FrameLoopState)
    (imageIndex : Nat) (a b : VkStatus)
    (hinv : FenceMapInv numImages st) (himg : imageIndex < numImages) :
    FenceMapInv numImages (drawFrame st imageIndex a b).state := by
  obtain ⟨hlen, hmap, hpair⟩ := hinv
  rw [drawFrame_state]
  cases hm : st.imagesInFlight.getD imageIndex none with
  | none =>
    simp only [hm]
    refine inv_after_submit numImages st imageIndex _ hlen ?_ ?_ ?_ hmap ?_
      himg
    · intro s hs
      exact (mem_waitForFence _ _ s hs).1
    · intro s hs
      exact (mem_waitForFence _ _ s hs).2
    · intro s hs hcontra
      have hsm := (mem_waitForFence _ _ s hs).1
      have h2 := hmap s hsm
      rw [hcontra, hm] at h2
      exact Option.noConfusion h2
    · exact pairwise_waitForFence _ _ hpair
  | some recordedSlot =>
    simp only [hm]
    refine inv_after_submit numImages st imageIndex _ hlen ?_ ?_ ?_ hmap ?_
      himg
    · intro s hs
      exact (mem_waitForFence _ _ s (mem_waitForFence _ _ s hs).1).1
    · intro s hs
      exact (mem_waitForFence _ _ s (mem_waitForFence _ _ s hs).1).2
    · intro s hs hcontra
      have hs1 := mem_waitForFence _ _ s hs
      have hsm := (mem_waitForFence _ _ s hs1.1).1
      have h2 := hmap s hsm
      rw [hcontra, hm] at h2
      exact hs1.2 (Option.some.inj h2.symm)
    · exact pairwise_waitForFence _ _ (pairwise_waitForFence _ _ hpair)

theorem frameLoopStep_inv (F numImages : Nat) (st : FrameLoopState)
    (imageIndex : Nat) (hinv : FenceMapInv numImages st)
    (himg : imageIndex < numImages) :
    FenceMapInv numImages (frameLoopStep F st imageIndex) := by
  obtain ⟨h1, h2, h3⟩ :=
    drawFrame_inv numImages st imageIndex VkStatus.success VkStatus.success
      hinv himg
  exact ⟨h1, h2, h3⟩

theorem initialFrameLoopState_inv (numImages : Nat) :
    FenceMapInv numImages (initialFrameLoopState numImages) := by
  refine ⟨by simp [initialFrameLoopState], ?_, ?_⟩
  · intro s hs
    simp [initialFrameLoopState] at hs
  · simp [initialFrameLoopState]

theorem frameLoopRun_foldl_inv (F numImages : Nat) :
    ∀ (trace : List Nat) (st : FrameLoopState), FenceMapInv numImages st →
      (∀ i ∈ trace, i < numImages) →
      FenceMapInv numImages (trace.foldl (frameLoopStep F) st) := by
  intro trace
  induction trace with
  | nil =>
    intro st h _
    simpa using h
  | cons i rest ih =>
    intro st h htr
    simp only [List.foldl_cons]
    exact ih (frameLoopStep F st i)
      (frameLoopStep_inv F numImages st i h (htr i (List.mem_cons_self i rest)))
      (fun j hj => htr j (List.mem_cons_of_mem i hj))

/-- Claim C1: for every frame-loop execution with `F ≥ 1` frame slots and
`N ≥ F` chain images, over any trace of acquired image indices, `drawFrame`
enforces the image-fence map protocol: the map records, at each image index,
the slot fence of the submission currently in flight into that image (a
recorded fence having been waited on before the entry was overwritten with
the current slot's fence), and consequently no two in-flight submissions
ever target the same image index. -/
theorem drawFrame_image_fence_protocol (F N : Nat) (trace : List Nat)
    (hF : 1 ≤ F) (hFN : F ≤ N) (htrace : ∀ i ∈ trace, i < N) :
    (∀ s ∈ (frameLoopRun F N trace).pending,
      (frameLoopRun F N trace).imagesInFlight.getD s.2 none = some s.1) ∧
    (frameLoopRun F N trace).pending.Pairwise (fun a b => a.2 ≠ b.2) := by
  have hinv : FenceMapInv N (frameLoopRun F N trace) :=
    frameLoopRun_foldl_inv F N trace (initialFrameLoopState N)
      (initialFrameLoopState_inv N) htrace
  obtain ⟨hlen, hmap, hpair⟩ := hinv
  refine ⟨hmap, ?_⟩
  refine hpair.imp_of_mem ?_
  intro a b ha hb hne heq
  have h1 := hmap a ha
  have h2 := hmap b hb
  rw [heq] at h1
  exact hne (Option.some.inj (h1.symm.trans h2))

/-- Witness for the C1 theorem at `F = 2` slots and `N = 3` chain images
over a concrete five-iteration trace of acquired indices. -/
theorem drawFrame_image_fence_protocol_witness :
    (frameLoopRun 2 3 [0, 1, 2, 0, 1]).pending.Pairwise
      (fun a b => a.2 ≠ b.2) :=
  (drawFrame_image_fence_protocol 2 3 [0, 1, 2, 0, 1] (by decide) (by decide)
    (by decide)).2

end VulkanCtx
